import Mathlib

/-
Verification development for the crash-safe memory probing core
(src/safeAccess.h) and the OS abstraction layer header (src/os.h).

The C++ code is shallowly embedded: machine integers are Nat with explicit
reduction modulo the pointer width where the source relies on unsigned
wraparound, memory is a structure of abstract read functions (one per access
width appearing in the source), and each probe records the list of loads it
performs so that "performs exactly one load" is expressible.
-/

namespace AsyncProfiler

/-- Compile-time target architecture. One constructor per preprocessor branch
appearing in safeAccess.h: x86_64, i386, arm (also covers thumb), aarch64,
little-endian PPC64, and a fallback for any other architecture. The fallback
carries sizeof(instruction_t) and sizeof(void*) from the (unspecified) arch.h
of that architecture. -/
inductive Arch where
  | x86_64
  | i386
  | arm
  | aarch64
  | ppc64le
  | otherArch (instrSize ptrSize : Nat)
deriving DecidableEq

/-- Pointer width in bytes (sizeof(void*), sizeof(uintptr_t)) per target. -/
def Arch.ptrSize : Arch → Nat
  | .i386 => 4
  | .arm => 4
  | .x86_64 => 8
  | .aarch64 => 8
  | .ppc64le => 8
  | .otherArch _ p => p

/-- Number of values of uintptr_t on the target: 2 ^ (8 * sizeof(uintptr_t)).
All pointer arithmetic in safeAccess.h is performed modulo this. -/
def Arch.addrSpaceSize (a : Arch) : Nat := 2 ^ (8 * a.ptrSize)

/-- Unsigned subtraction a - b modulo M, the semantics of C uintptr_t
subtraction for a, b < M. -/
def wsub (M a b : Nat) : Nat := (a + (M - b % M)) % M

/-- Readable memory, embedded as one abstract read function per access width
used by safeAccess.h: *(u8*)p, *(u16*)p, *(u32*)p (instruction_t), and the
pointer-wide *(void**)p. -/
structure Memory where
  read8 : Nat → Nat
  read16 : Nat → Nat
  read32 : Nat → Nat
  readPtr : Nat → Nat

/-- One memory load performed by a probe, tagged with its width and address. -/
inductive ReadEvent where
  | word32 (addr : Nat)
  | ptr (addr : Nat)
deriving DecidableEq

/-- Entry addresses of the three probe functions SafeAccess::load,
SafeAccess::load32 and SafeAccess::loadPtr, as taken by (uintptr_t)load etc.
Each function is declared noinline and aligned(16) in the source, so in any
real process image the three addresses are 16-byte aligned and distinct;
those facts are taken as hypotheses where a theorem needs them. -/
structure ProbeLayout where
  loadAddr : Nat
  load32Addr : Nat
  loadPtrAddr : Nat
deriving DecidableEq

/-- SafeAccess::load(void** ptr) \x7b return *ptr; \x7d  (safeAccess.h:22-25).
Returns the loaded value together with the trace of loads performed. -/
def SafeAccess.load (mem : Memory) (ptr : Nat) : Nat × List ReadEvent :=
  (mem.readPtr ptr, [ReadEvent.ptr ptr])

/-- SafeAccess::load32(u32* ptr, u32 default_value) \x7b return *ptr; \x7d
(safeAccess.h:27-30). The default_value parameter is not read on the success
path; it is materialized only by the fault recovery handler. -/
def SafeAccess.load32 (mem : Memory) (ptr : Nat) (default_value : Nat) :
    Nat × List ReadEvent :=
  (mem.read32 ptr, [ReadEvent.word32 ptr])

/-- SafeAccess::loadPtr(void** ptr, void* default_value) \x7b return *ptr; \x7d
(safeAccess.h:32-35). -/
def SafeAccess.loadPtr (mem : Memory) (ptr : Nat) (default_value : Nat) :
    Nat × List ReadEvent :=
  (mem.readPtr ptr, [ReadEvent.ptr ptr])

/-- SafeAccess::skipLoad(uintptr_t pc) (safeAccess.h:37-52). The window test
is (pc - (uintptr_t)load) < 16 in uintptr_t arithmetic: only the window of
SafeAccess::load is tested. Inside the window the per-architecture branch
checks the expected load-instruction encoding at pc and returns its byte
length, except the fallback branch, which returns sizeof(instruction_t)
unconditionally (4 on PPC64, whose instructions are fixed-width). -/
def SafeAccess.skipLoad (arch : Arch) (lay : ProbeLayout) (mem : Memory)
    (pc : Nat) : Nat :=
  if wsub arch.addrSpaceSize pc lay.loadAddr < 16 then
    match arch with
    | .x86_64 => if mem.read16 pc == 0x8b48 then 3 else 0    -- mov rax, [reg]
    | .i386 => if mem.read8 pc == 0x8b then 2 else 0         -- mov eax, [reg]
    | .arm =>                                                -- ldr r0, [reg]
        if mem.read32 pc &&& 0x0e50f000 == 0x04100000 then 4 else 0
    | .aarch64 =>                                            -- ldr x0, [reg]
        if mem.read32 pc &&& 0xffc0001f == 0xf9400000 then 4 else 0
    | .ppc64le => 4                                          -- sizeof(instruction_t)
    | .otherArch n _ => n                                    -- sizeof(instruction_t)
  else 0

/-- SafeAccess::skipLoadArg(uintptr_t pc) (safeAccess.h:54-61): only on
aarch64, and only when pc is within 16 bytes past load32 or loadPtr, the
extra 4-byte offset for the argument-loading instruction; 0 otherwise. -/
def SafeAccess.skipLoadArg (arch : Arch) (lay : ProbeLayout) (pc : Nat) : Nat :=
  match arch with
  | .aarch64 =>
      if wsub Arch.aarch64.addrSpaceSize pc lay.load32Addr < 16 ∨
         wsub Arch.aarch64.addrSpaceSize pc lay.loadPtrAddr < 16 then 4 else 0
  | _ => 0

/-- SafeAccess::lastJavaPCFromStack(lastJavaSP, topSP) (safeAccess.h:63-78).
On aarch64 the slot immediately below lastJavaSP is always read; on
little-endian PPC64 the function returns NULL (0) without reading, deferring
to the VM; on every other architecture the slot below lastJavaSP is read only
when lastJavaSP < topSP, and NULL is returned otherwise. The second component
is the trace of loads performed. -/
def SafeAccess.lastJavaPCFromStack (arch : Arch) (mem : Memory)
    (lastJavaSP topSP : Nat) : Nat × List ReadEvent :=
  match arch with
  | .aarch64 =>
      (mem.readPtr (wsub arch.addrSpaceSize lastJavaSP arch.ptrSize),
       [ReadEvent.ptr (wsub arch.addrSpaceSize lastJavaSP arch.ptrSize)])
  | .ppc64le => (0, [])
  | _ =>
      if lastJavaSP < topSP then
        (mem.readPtr (wsub arch.addrSpaceSize lastJavaSP arch.ptrSize),
         [ReadEvent.ptr (wsub arch.addrSpaceSize lastJavaSP arch.ptrSize)])
      else (0, [])

/-- Spec-side predicate: the bytes at pc match the architecture's expected
load-instruction encoding, i.e. the bit pattern/mask pair the decode table
documents for that architecture. No encoding is defined for the fallback
architectures, whose branch never examines memory. -/
def matchesLoadEncoding (arch : Arch) (mem : Memory) (pc : Nat) : Bool :=
  match arch with
  | .x86_64 => mem.read16 pc == 0x8b48
  | .i386 => mem.read8 pc == 0x8b
  | .arm => mem.read32 pc &&& 0x0e50f000 == 0x04100000
  | .aarch64 => mem.read32 pc &&& 0xffc0001f == 0xf9400000
  | _ => false

/-- Spec-side table: the documented byte count skipLoad reports for a
recognized load instruction (3 on x86_64, 2 on i386, 4 on arm and aarch64). -/
def documentedSkip : Arch → Nat
  | .x86_64 => 3
  | .i386 => 2
  | .arm => 4
  | .aarch64 => 4
  | _ => 0

/-- What skipLoad returns inside the window when the bytes do NOT match the
architecture's load encoding: 0 on the four architectures whose branch checks
the encoding, and sizeof(instruction_t) on the unchecked fallback branches. -/
def nonMatchingSkip : Arch → Nat
  | .x86_64 => 0
  | .i386 => 0
  | .arm => 0
  | .aarch64 => 0
  | .ppc64le => 4
  | .otherArch n _ => n

/-- SIGIO of <signal.h> on Linux (not part of src). -/
def SIGIO : Nat := 29

/-- const int WAKEUP_SIGNAL = SIGIO (os.h:19-20): the signal used to
interrupt threads, the same signal the JDK uses to interrupt I/O. -/
def WAKEUP_SIGNAL : Nat := SIGIO

/-- ThreadList (os.h:29-49): the thread enumeration cursor's concrete state,
two u32 counters. The pure-virtual next()/update() members are left to
subclasses and are not modelled. -/
structure ThreadList where
  _index : Nat
  _count : Nat
deriving DecidableEq

/-- The protected default constructor ThreadList() : _index(0), _count(0). -/
def ThreadList.init : ThreadList := ⟨0, 0⟩

/-- u32 index() const \x7b return _index; \x7d -/
def ThreadList.index (t : ThreadList) : Nat := t._index

/-- u32 count() const \x7b return _count; \x7d -/
def ThreadList.count (t : ThreadList) : Nat := t._count

/-- bool hasNext() const \x7b return _index < _count; \x7d -/
def ThreadList.hasNext (t : ThreadList) : Bool := decide (t._index < t._count)

/-- Memory whose every read returns 0. No architecture's load encoding
matches an all-zero byte sequence. -/
def zeroMem : Memory := ⟨fun _ => 0, fun _ => 0, fun _ => 0, fun _ => 0⟩

/-- Concrete probe layout: three 16-byte aligned, pairwise distinct entry
addresses, as the aligned(16) noinline probe functions have. -/
def cexLayout : ProbeLayout := ⟨16, 32, 48⟩

/-- Memory whose reads return the aarch64 encoding of ldr x0, [x0] -- the
actual instruction a compiled SafeAccess::loadPtr begins with on aarch64. -/
def cexMemA64 : Memory :=
  ⟨fun _ => 0, fun _ => 0, fun _ => 0xf9400000, fun _ => 0⟩

/-- Memory whose 16-bit reads return the x86_64 encoding of mov rax, [rax]. -/
def cexMemX64 : Memory :=
  ⟨fun _ => 0x8b, fun _ => 0x8b48, fun _ => 0, fun _ => 0⟩

/-- Memory with distinct constant values per width, to observe probe
results. -/
def constMem : Memory := ⟨fun _ => 7, fun _ => 11, fun _ => 33, fun _ => 42⟩

/-! Helper lemmas about the wrapped window test. -/

/-- Wrapped subtraction of an address from itself is 0 when the address is in
range, so every probe entry lies in its own window. -/
lemma wsub_self (M a : Nat) (h : a < M) : wsub M a a = 0 := by
  unfold wsub
  rw [Nat.mod_eq_of_lt h]
  have h2 : a + (M - a) = M := by omega
  rw [h2, Nat.mod_self]

/-- An address strictly below a 16-aligned in-range entry wraps to a huge
difference, hence misses the 16-byte window (16 divides M). -/
lemma window_miss_of_lt (M a b : Nat) (hb : b < M) (hM : M % 16 = 0)
    (hb16 : b % 16 = 0) (hab : a < b) : ¬ wsub M a b < 16 := by
  unfold wsub
  rw [Nat.mod_eq_of_lt hb]
  have h2 : a + (M - b) < M := by omega
  rw [Nat.mod_eq_of_lt h2]
  omega

/-- Two distinct 16-aligned in-range addresses are at wrapped distance at
least 16, so one probe entry never lies in another probe's window. -/
lemma window_miss_of_aligned (M a b : Nat) (ha : a < M) (hb : b < M)
    (hM : M % 16 = 0) (ha16 : a % 16 = 0) (hb16 : b % 16 = 0) (hab : a ≠ b) :
    ¬ wsub M a b < 16 := by
  rcases Nat.lt_or_ge a b with h | h
  · exact window_miss_of_lt M a b hb hM hb16 h
  · unfold wsub
    rw [Nat.mod_eq_of_lt hb]
    have h2 : a + (M - b) = M + (a - b) := by omega
    rw [h2, Nat.add_mod_left, Nat.mod_eq_of_lt (by omega)]
    omega

/-- skipLoad answers 0 whenever the window test on load's entry fails. -/
lemma skipLoad_zero_of_outside (arch : Arch) (lay : ProbeLayout) (mem : Memory)
    (pc : Nat) (h : ¬ wsub arch.addrSpaceSize pc lay.loadAddr < 16) :
    SafeAccess.skipLoad arch lay mem pc = 0 := by
  unfold SafeAccess.skipLoad
  rw [if_neg h]

/-- At load's own entry, a matching encoding yields the documented count. -/
lemma skipLoad_at_load_entry (arch : Arch) (lay : ProbeLayout) (mem : Memory)
    (hb : lay.loadAddr < arch.addrSpaceSize)
    (hm : matchesLoadEncoding arch mem lay.loadAddr = true) :
    SafeAccess.skipLoad arch lay mem lay.loadAddr = documentedSkip arch := by
  have h0 : wsub arch.addrSpaceSize lay.loadAddr lay.loadAddr = 0 :=
    wsub_self _ _ hb
  unfold SafeAccess.skipLoad
  rw [if_pos (by rw [h0]; omega)]
  cases arch with
  | x86_64 => simp only [matchesLoadEncoding] at hm; simp [hm, documentedSkip]
  | i386 => simp only [matchesLoadEncoding] at hm; simp [hm, documentedSkip]
  | arm => simp only [matchesLoadEncoding] at hm; simp [hm, documentedSkip]
  | aarch64 => simp only [matchesLoadEncoding] at hm; simp [hm, documentedSkip]
  | ppc64le => simp [matchesLoadEncoding] at hm
  | otherArch n p => simp [matchesLoadEncoding] at hm

/-- A matching encoding certifies one of the four checked architectures, on
which the address space size is a multiple of 16. -/
lemma addrSpace_mod16_of_match (arch : Arch) (mem : Memory) (pc : Nat)
    (hm : matchesLoadEncoding arch mem pc = true) :
    arch.addrSpaceSize % 16 = 0 := by
  cases arch with
  | x86_64 => decide
  | i386 => decide
  | arm => decide
  | aarch64 => decide
  | ppc64le => simp [matchesLoadEncoding] at hm
  | otherArch n p => simp [matchesLoadEncoding] at hm

/-- Claim C1, counterexample. The claim states skipLoad returns the
documented nonzero count at the entry of EACH probe function when the bytes
there match the architecture's load encoding. On aarch64, with the three
probes at the 16-aligned distinct addresses 16, 32 and 48 and memory holding
the exact ldr x0, [x0] encoding a compiled loadPtr starts with, skipLoad at
loadPtr's entry returns 0, not the documented 4: the source tests only the
window of SafeAccess::load. -/
theorem skipLoad_probe_entries_cex :
    matchesLoadEncoding Arch.aarch64 cexMemA64 cexLayout.loadPtrAddr = true ∧
    documentedSkip Arch.aarch64 = 4 ∧
    SafeAccess.skipLoad Arch.aarch64 cexLayout cexMemA64 cexLayout.loadPtrAddr
      = 0 := by
  refine ⟨by decide, by decide, ?_⟩
  have h : ¬ wsub Arch.aarch64.addrSpaceSize cexLayout.loadPtrAddr
      cexLayout.loadAddr < 16 := by decide
  exact skipLoad_zero_of_outside _ _ _ _ h

/-- Claim C1, amended: at the entry of SafeAccess::load, matching bytes give
the documented nonzero count (3 on x86_64, 2 on i386, 4 on arm and aarch64);
at the entries of load32 and loadPtr — which, being 16-byte aligned, in
range and distinct from load, lie outside the only window skipLoad tests —
skipLoad returns 0 regardless of the bytes. -/
theorem skipLoad_probe_entries_amended (arch : Arch) (lay : ProbeLayout)
    (mem : Memory)
    (hm : matchesLoadEncoding arch mem lay.loadAddr = true)
    (ha1 : lay.loadAddr % 16 = 0) (ha2 : lay.load32Addr % 16 = 0)
    (ha3 : lay.loadPtrAddr % 16 = 0)
    (hb1 : lay.loadAddr < arch.addrSpaceSize)
    (hb2 : lay.load32Addr < arch.addrSpaceSize)
    (hb3 : lay.loadPtrAddr < arch.addrSpaceSize)
    (hd2 : lay.load32Addr ≠ lay.loadAddr)
    (hd3 : lay.loadPtrAddr ≠ lay.loadAddr) :
    SafeAccess.skipLoad arch lay mem lay.loadAddr = documentedSkip arch ∧
    documentedSkip arch ≠ 0 ∧
    SafeAccess.skipLoad arch lay mem lay.load32Addr = 0 ∧
    SafeAccess.skipLoad arch lay mem lay.loadPtrAddr = 0 := by
  have hM : arch.addrSpaceSize % 16 = 0 := addrSpace_mod16_of_match arch mem _ hm
  refine ⟨skipLoad_at_load_entry arch lay mem hb1 hm, ?_, ?_, ?_⟩
  · cases arch with
    | x86_64 => decide
    | i386 => decide
    | arm => decide
    | aarch64 => decide
    | ppc64le => simp [matchesLoadEncoding] at hm
    | otherArch n p => simp [matchesLoadEncoding] at hm
  · exact skipLoad_zero_of_outside arch lay mem _
      (window_miss_of_aligned _ _ _ hb2 hb1 hM ha2 ha1 hd2)
  · exact skipLoad_zero_of_outside arch lay mem _
      (window_miss_of_aligned _ _ _ hb3 hb1 hM ha3 ha1 hd3)

/-- Claim C1, witness for the amended theorem at a concrete input: x86_64,
probes at 16, 32 and 48, memory whose 16-bit reads give the mov rax, [reg]
encoding. -/
theorem skipLoad_probe_entries_amended_witness :
    SafeAccess.skipLoad Arch.x86_64 cexLayout cexMemX64 16 = 3 ∧
    SafeAccess.skipLoad Arch.x86_64 cexLayout cexMemX64 32 = 0 ∧
    SafeAccess.skipLoad Arch.x86_64 cexLayout cexMemX64 48 = 0 := by
  have h := skipLoad_probe_entries_amended Arch.x86_64 cexLayout cexMemX64
    (by decide) (by decide) (by decide) (by decide) (by decide) (by decide)
    (by decide) (by decide) (by decide)
  exact ⟨h.1, h.2.2.1, h.2.2.2⟩

/-- Claim C2, counterexample. The claim states skipLoad returns 0 on every
in-window pc with non-matching bytes on EVERY architecture, including the
fallback branch. On a fallback architecture with 4-byte instructions and
8-byte pointers, with all-zero memory (which matches no architecture's load
encoding), skipLoad at load's own entry returns sizeof(instruction_t) = 4,
not 0: the fallback branch never examines the bytes. -/
theorem skipLoad_conservative_cex :
    matchesLoadEncoding (Arch.otherArch 4 8) zeroMem cexLayout.loadAddr
      = false ∧
    matchesLoadEncoding Arch.x86_64 zeroMem cexLayout.loadAddr = false ∧
    matchesLoadEncoding Arch.i386 zeroMem cexLayout.loadAddr = false ∧
    matchesLoadEncoding Arch.arm zeroMem cexLayout.loadAddr = false ∧
    matchesLoadEncoding Arch.aarch64 zeroMem cexLayout.loadAddr = false ∧
    SafeAccess.skipLoad (Arch.otherArch 4 8) cexLayout zeroMem
      cexLayout.loadAddr = 4 := by
  refine ⟨by decide, by decide, by decide, by decide, by decide, ?_⟩
  show (if wsub ((Arch.otherArch 4 8).addrSpaceSize) cexLayout.loadAddr
      cexLayout.loadAddr < 16 then _ else 0) = 4
  rw [if_pos (by decide)]

/-- Claim C2, amended: inside the window, non-matching bytes yield 0 on the
four architectures whose branch checks the encoding (x86_64, i386, arm,
aarch64); on the fallback branch (PPC64 and any other architecture) skipLoad
returns sizeof(instruction_t) for every in-window pc without examining the
bytes. -/
theorem skipLoad_conservative_amended (arch : Arch) (lay : ProbeLayout)
    (mem : Memory) (pc : Nat)
    (hw : wsub arch.addrSpaceSize pc lay.loadAddr < 16)
    (hm : matchesLoadEncoding arch mem pc = false) :
    SafeAccess.skipLoad arch lay mem pc = nonMatchingSkip arch := by
  unfold SafeAccess.skipLoad
  rw [if_pos hw]
  cases arch with
  | x86_64 => simp only [matchesLoadEncoding] at hm; simp [hm, nonMatchingSkip]
  | i386 => simp only [matchesLoadEncoding] at hm; simp [hm, nonMatchingSkip]
  | arm => simp only [matchesLoadEncoding] at hm; simp [hm, nonMatchingSkip]
  | aarch64 => simp only [matchesLoadEncoding] at hm; simp [hm, nonMatchingSkip]
  | ppc64le => simp [nonMatchingSkip]
  | otherArch n p => simp [nonMatchingSkip]

/-- Claim C2, witness for the amended theorem: at load's entry with all-zero
memory, x86_64 answers 0 while the fallback architecture answers 4. -/
theorem skipLoad_conservative_amended_witness :
    SafeAccess.skipLoad Arch.x86_64 cexLayout zeroMem 16 = 0 ∧
    SafeAccess.skipLoad (Arch.otherArch 4 8) cexLayout zeroMem 16 = 4 :=
  ⟨skipLoad_conservative_amended Arch.x86_64 cexLayout zeroMem 16
      (by decide) (by decide),
   skipLoad_conservative_amended (Arch.otherArch 4 8) cexLayout zeroMem 16
      (by decide) (by decide)⟩

/-- Claim C3: for every pc outside all known probe windows — not within 16
bytes past any of the three probe entries, in wrapped uintptr_t arithmetic —
skipLoad returns 0, on every architecture and over any memory contents. -/
theorem skipLoad_outside_windows (arch : Arch) (lay : ProbeLayout)
    (mem : Memory) (pc : Nat)
    (h1 : ¬ wsub arch.addrSpaceSize pc lay.loadAddr < 16)
    (h2 : ¬ wsub arch.addrSpaceSize pc lay.load32Addr < 16)
    (h3 : ¬ wsub arch.addrSpaceSize pc lay.loadPtrAddr < 16) :
    SafeAccess.skipLoad arch lay mem pc = 0 :=
  skipLoad_zero_of_outside arch lay mem pc h1

/-- Claim C3, witness: pc = 100 is at wrapped distance at least 16 from all
of 16, 32 and 48, and skipLoad answers 0 there even over memory whose bytes
match the load encoding everywhere. -/
theorem skipLoad_outside_windows_witness :
    SafeAccess.skipLoad Arch.x86_64 cexLayout cexMemX64 100 = 0 :=
  skipLoad_outside_windows Arch.x86_64 cexLayout cexMemX64 100
    (by decide) (by decide) (by decide)

/-- Claim C8: for every pc strictly below the entry of SafeAccess::load, the
unsigned difference pc - entry wraps around to a value of at least 16 (the
entry being 16-byte aligned and in range), so skipLoad returns 0. -/
theorem skipLoad_below_entry_zero (arch : Arch) (lay : ProbeLayout)
    (mem : Memory) (pc : Nat)
    (ha : lay.loadAddr % 16 = 0) (hb : lay.loadAddr < arch.addrSpaceSize)
    (hpc : pc < lay.loadAddr) :
    SafeAccess.skipLoad arch lay mem pc = 0 := by
  have hM : arch.addrSpaceSize % 16 = 0 := by
    cases arch with
    | x86_64 => decide
    | i386 => decide
    | arm => decide
    | aarch64 => decide
    | ppc64le => decide
    | otherArch n p =>
      cases p with
      | zero =>
        have h1 : (Arch.otherArch n 0).addrSpaceSize = 1 := by
          simp [Arch.addrSpaceSize, Arch.ptrSize]
        omega
      | succ q =>
        have h4 : (16 : Nat) = 2 ^ 4 := by norm_num
        have hdvd : (16 : Nat) ∣ (Arch.otherArch n (q + 1)).addrSpaceSize := by
          rw [h4]
          exact pow_dvd_pow 2 (by simp [Arch.addrSpaceSize, Arch.ptrSize]; omega)
        omega
  exact skipLoad_zero_of_outside arch lay mem pc
    (window_miss_of_lt _ _ _ hb hM ha hpc)

/-- Claim C8, witness: pc = 3 lies below the load entry 16 and gets 0, here
even over memory whose bytes match the x86_64 load encoding everywhere. -/
theorem skipLoad_below_entry_zero_witness :
    SafeAccess.skipLoad Arch.x86_64 cexLayout cexMemX64 3 = 0 :=
  skipLoad_below_entry_zero Arch.x86_64 cexLayout cexMemX64 3
    (by decide) (by decide) (by decide)

/-- Claim C4: each probe function performs exactly one load, of the right
width, from the supplied address, and returns exactly the value stored
there; the two-argument variants' result does not depend on the supplied
default value. -/
theorem probe_functions_transparent (mem : Memory) (a v d d' : Nat) :
    (mem.readPtr a = v →
      SafeAccess.load mem a = (v, [ReadEvent.ptr a]) ∧
      SafeAccess.loadPtr mem a d = (v, [ReadEvent.ptr a])) ∧
    (mem.read32 a = v →
      SafeAccess.load32 mem a d = (v, [ReadEvent.word32 a])) ∧
    SafeAccess.load32 mem a d = SafeAccess.load32 mem a d' ∧
    SafeAccess.loadPtr mem a d = SafeAccess.loadPtr mem a d' := by
  refine ⟨fun h => ⟨?_, ?_⟩, fun h => ?_, rfl, rfl⟩ <;>
    simp [SafeAccess.load, SafeAccess.loadPtr, SafeAccess.load32, h]

/-- Claim C4, witness: over memory holding 42 at every pointer-wide slot and
33 at every 32-bit slot, the three probes at address 5 return those values
with a single load each, for an arbitrary default value 7. -/
theorem probe_functions_transparent_witness :
    SafeAccess.load constMem 5 = (42, [ReadEvent.ptr 5]) ∧
    SafeAccess.loadPtr constMem 5 7 = (42, [ReadEvent.ptr 5]) ∧
    SafeAccess.load32 constMem 5 7 = (33, [ReadEvent.word32 5]) := by
  have h1 := probe_functions_transparent constMem 5 42 7 9
  have h2 := probe_functions_transparent constMem 5 33 7 9
  exact ⟨(h1.1 rfl).1, (h1.1 rfl).2, h2.2.1 rfl⟩

/-- Claim C5: skipLoadArg returns the nonzero offset 4 exactly on aarch64
with pc within 16 bytes past the entry of load32 or loadPtr; in every other
case — any other architecture, or any pc outside both windows — it
returns 0. -/
theorem skipLoadArg_spec (arch : Arch) (lay : ProbeLayout) (pc : Nat) :
    (SafeAccess.skipLoadArg arch lay pc = 4 ∧ arch = Arch.aarch64 ∧
      (wsub Arch.aarch64.addrSpaceSize pc lay.load32Addr < 16 ∨
       wsub Arch.aarch64.addrSpaceSize pc lay.loadPtrAddr < 16)) ∨
    (SafeAccess.skipLoadArg arch lay pc = 0 ∧
      ¬ (arch = Arch.aarch64 ∧
        (wsub Arch.aarch64.addrSpaceSize pc lay.load32Addr < 16 ∨
         wsub Arch.aarch64.addrSpaceSize pc lay.loadPtrAddr < 16))) := by
  cases arch with
  | aarch64 =>
    by_cases h : wsub Arch.aarch64.addrSpaceSize pc lay.load32Addr < 16 ∨
        wsub Arch.aarch64.addrSpaceSize pc lay.loadPtrAddr < 16
    · exact Or.inl ⟨by simp [SafeAccess.skipLoadArg, if_pos h], rfl, h⟩
    · exact Or.inr ⟨by simp [SafeAccess.skipLoadArg, if_neg h], by tauto⟩
  | x86_64 => exact Or.inr ⟨rfl, by simp⟩
  | i386 => exact Or.inr ⟨rfl, by simp⟩
  | arm => exact Or.inr ⟨rfl, by simp⟩
  | ppc64le => exact Or.inr ⟨rfl, by simp⟩
  | otherArch n p => exact Or.inr ⟨rfl, by simp⟩

/-- Claim C6: on little-endian PPC64 lastJavaPCFromStack returns NULL (0)
for every pair of stack pointers, performing no memory read at all: the last
Java pc is left to the VM to resolve. -/
theorem lastJavaPC_ppc64le_null (mem : Memory) (lastJavaSP topSP : Nat) :
    SafeAccess.lastJavaPCFromStack Arch.ppc64le mem lastJavaSP topSP
      = (0, []) := rfl

/-- Claim C7: the default thread-interrupt signal WAKEUP_SIGNAL is SIGIO,
the signal the JDK uses to interrupt blocking I/O operations. -/
theorem wakeup_signal_is_sigio : WAKEUP_SIGNAL = SIGIO ∧ WAKEUP_SIGNAL = 29 :=
  ⟨rfl, rfl⟩

/-- Claim C9: on every architecture other than aarch64 and little-endian
PPC64, lastJavaPCFromStack reads the pointer-wide stack slot immediately
below lastJavaSP exactly when lastJavaSP < topSP, and returns NULL (0) with
no memory read at all when lastJavaSP >= topSP. -/
theorem lastJavaPC_guard (arch : Arch) (mem : Memory)
    (lastJavaSP topSP : Nat)
    (h1 : arch ≠ Arch.aarch64) (h2 : arch ≠ Arch.ppc64le) :
    (lastJavaSP < topSP →
      SafeAccess.lastJavaPCFromStack arch mem lastJavaSP topSP =
        (mem.readPtr (wsub arch.addrSpaceSize lastJavaSP arch.ptrSize),
         [ReadEvent.ptr (wsub arch.addrSpaceSize lastJavaSP arch.ptrSize)])) ∧
    (topSP ≤ lastJavaSP →
      SafeAccess.lastJavaPCFromStack arch mem lastJavaSP topSP = (0, [])) := by
  cases arch
  case aarch64 => exact absurd rfl h1
  case ppc64le => exact absurd rfl h2
  all_goals
    exact ⟨fun h => by simp [SafeAccess.lastJavaPCFromStack, h],
           fun h => by
             simp [SafeAccess.lastJavaPCFromStack, Nat.not_lt.mpr h]⟩

/-- Claim C9, witness on x86_64 over all-zero memory: with the stack pointer
below the top, the slot below it (wrapped address 0) is read once; with the
stack pointer at the top, NULL comes back with no read. -/
theorem lastJavaPC_guard_witness :
    SafeAccess.lastJavaPCFromStack Arch.x86_64 zeroMem 8 16 =
      (zeroMem.readPtr (wsub Arch.x86_64.addrSpaceSize 8 Arch.x86_64.ptrSize),
       [ReadEvent.ptr
         (wsub Arch.x86_64.addrSpaceSize 8 Arch.x86_64.ptrSize)]) ∧
    SafeAccess.lastJavaPCFromStack Arch.x86_64 zeroMem 16 16 = (0, []) :=
  ⟨(lastJavaPC_guard Arch.x86_64 zeroMem 8 16 (by decide) (by decide)).1
      (by decide),
   (lastJavaPC_guard Arch.x86_64 zeroMem 16 16 (by decide) (by decide)).2
      (by decide)⟩

/-- Claim C10: a ThreadList cursor's hasNext() is true exactly when
index() < count(), and the freshly constructed cursor has index 0 and
count 0, hence hasNext() false before the first update(). -/
theorem threadList_hasNext_invariant :
    (∀ t : ThreadList, t.hasNext = true ↔ t.index < t.count) ∧
    ThreadList.init.index = 0 ∧ ThreadList.init.count = 0 ∧
    ThreadList.init.hasNext = false := by
  refine ⟨fun t => ?_, rfl, rfl, rfl⟩
  simp [ThreadList.hasNext, ThreadList.index, ThreadList.count]

end AsyncProfiler
